import Mathlib

/-
Verification development for the p0 tutorial autograder
(testParser.py, testClasses.py, tutorialTestClasses.py, grading.py, util.py).

Each Python component used by the claims is shallowly embedded as an
executable Lean definition.  Files are modelled at line granularity: a test
file is a List String of its lines (the Python code reads the file with
splitlines(), so no line contains a newline character), and the original
byte sequence of a file whose every line ends with a newline is
linesText lines.
-/

/- ------------------------------------------------------------------ -/
/- Test-file parser: src/p0/tutorial/testParser.py                     -/
/- ------------------------------------------------------------------ -/

/-- Python regex class \s for the ASCII range: space, tab, newline,
carriage return, vertical tab, form feed. -/
def pyIsSpace (c : Char) : Bool :=
  c == ' ' || c == '\t' || c == '\n' || c == '\r' ||
  c == Char.ofNat 11 || c == Char.ofNat 12

/-- TestParser.removeComments acts per line as the Python split on the
hash character taking index zero: everything up to the first hash. -/
def stripComment (s : String) : String :=
  String.mk (s.toList.takeWhile (fun c => c != '#'))

/-- Matches the blank-line test re.match(r"\A\s*\Z", line). -/
def isBlank (s : String) : Bool :=
  s.toList.all pyIsSpace

/-- Matches the scalar-field regex of the parser (lazy key group, colon, optional whitespace, double-quoted value with no embedded quote, trailing whitespace) and returns
(group 1, group 2).  The lazy group forces group 1 to end at the unique
colon that is followed by whitespace only before the first quote; the
value sits between the only two quote characters of the line, and the
tail after the second quote must be whitespace. -/
def matchOneline (s : String) : Option (String × String) :=
  match s.toList.dropWhile (fun c => c != '"') with
  | '"' :: r2 =>
    match r2.dropWhile (fun c => c != '"') with
    | '"' :: tail =>
      if tail.all pyIsSpace then
        match (s.toList.takeWhile (fun c => c != '"')).reverse.dropWhile pyIsSpace with
        | ':' :: kr => some (String.mk kr.reverse, String.mk (r2.takeWhile (fun c => c != '"')))
        | _ => none
      else none
    | _ => none
  | _ => none

/-- Matches the multiline-opener regex of the parser (lazy key group, colon, optional whitespace, three double quotes, trailing whitespace) and returns group 1. -/
def matchMultiOpen (s : String) : Option String :=
  match s.toList.dropWhile (fun c => c != '"') with
  | '"' :: '"' :: '"' :: tail =>
    if tail.all pyIsSpace then
      match (s.toList.takeWhile (fun c => c != '"')).reverse.dropWhile pyIsSpace with
      | ':' :: kr => some (String.mk kr.reverse)
      | _ => none
    else none
  | _ => none

/-- Matches the block-closing regex of the parser (optional whitespace, three double quotes, optional whitespace), the closing line of a
multi-line block. -/
def isMultiClose (s : String) : Bool :=
  match s.toList.dropWhile pyIsSpace with
  | '"' :: '"' :: '"' :: tail => tail.all pyIsSpace
  | _ => false

/-- The Python newline join used for multi-line field values. -/
def joinNL : List String → String
  | [] => ""
  | [s] => s
  | s :: rest => s ++ "\n" ++ joinNL rest

/-- One entry of the test dictionary reconstruction log stored under the __emit__ key:
("raw", rawline), ("oneline", key) or ("multiline", key). -/
inductive EmitEntry where
  | raw (line : String)
  | oneline (key : String)
  | multiline (key : String)
deriving DecidableEq

/-- The failures of TestParser.parse.  invalidFormat ("Invalid format in
test file ... at line i+1") and unterminated ("Unterminated multiline
string") are the ValueError forms, the FormatError kind of the
specification.  attributeError is NOT a ValueError: when a parsed field
is named __emit__, the dict assignment overwrites the emit-log list and
the append on the next line of the source raises AttributeError.  The
file-not-found case is out of scope of the line-level model. -/
inductive ParseError where
  | invalidFormat (lineNo : Nat)
  | unterminated
  | attributeError
deriving DecidableEq

/-- Whether a parse failure is of the FormatError kind (a ValueError of
the parser) rather than an unrelated exception. -/
def ParseError.isFormatError : ParseError → Bool
  | .invalidFormat _ => true
  | .unterminated => true
  | .attributeError => false

/-- Position of the parse loop: at top level, or inside a multi-line
block opened for key with the raw body lines collected so far (in
reverse order). -/
inductive ParseMode where
  | top
  | inMulti (key : String) (acc : List String)

/-- The parse loop of TestParser.parse, one consumed line per step.
The loop matches against comment-stripped lines but records raw lines
(blank passthrough and multi-line bodies) verbatim.  Fields are kept as
an association list with the binding of the latest line first, which is
Python dict overwrite semantics under first-match lookup.  The special
entries path and raw-lines of the Python dict are kept out of band and
the emit log is stored in a dedicated field, but the collision the
Python code has on its own dictionary is modelled: a parsed field named
__emit__ overwrites the emit-log list, so the append that follows the
field assignment raises AttributeError — for a one-line field
immediately, for a multi-line block at its closing line (the
unterminated check precedes the assignment, so an unterminated block
still raises ValueError). -/
def parseLines : Nat → List EmitEntry → List (String × String) → ParseMode →
    List String → Except ParseError (List EmitEntry × List (String × String))
  | _, log, fields, .top, [] => .ok (log, fields)
  | _, _, _, .inMulti _ _, [] => .error .unterminated
  | i, log, fields, .top, rawLine :: rest =>
    let s := stripComment rawLine
    if isBlank s then
      parseLines (i+1) (log ++ [.raw rawLine]) fields .top rest
    else
      match matchOneline s with
      | some kv =>
        if kv.1 = "__emit__" then .error .attributeError
        else parseLines (i+1) (log ++ [.oneline kv.1]) (kv :: fields) .top rest
      | none =>
        match matchMultiOpen s with
        | some k => parseLines (i+1) log fields (.inMulti k []) rest
        | none => .error (.invalidFormat (i+1))
  | i, log, fields, .inMulti k acc, rawLine :: rest =>
    if isMultiClose (stripComment rawLine) then
      if k = "__emit__" then .error .attributeError
      else parseLines (i+1) (log ++ [.multiline k]) ((k, joinNL acc.reverse) :: fields) .top rest
    else
      parseLines (i+1) log fields (.inMulti k (rawLine :: acc)) rest

/-- Result of TestParser.parse: the emit log and the parsed fields. -/
structure ParsedTest where
  emitLog : List EmitEntry
  fields : List (String × String)
deriving DecidableEq

/-- The line list the parse loop actually iterates over: Python joins the
comment-stripped lines with newlines and calls splitlines() again, which
drops one trailing empty line when the last stripped line is empty. -/
def effectiveRawLines (raw : List String) : List String :=
  if (raw.map stripComment).getLast? = some "" then raw.dropLast else raw

/-- TestParser.parse on the raw line list of the file. -/
def parseFile (raw : List String) : Except ParseError ParsedTest :=
  match parseLines 0 [] [] .top (effectiveRawLines raw) with
  | .ok r => .ok ⟨r.1, r.2⟩
  | .error e => .error e

/-- Text written by one iteration of emitTestDict, looking the field
value up in the test dictionary; none models the KeyError path. -/
def emitEntry (fields : List (String × String)) : EmitEntry → Option String
  | .raw line => some (line ++ "\n")
  | .oneline k =>
    (fields.lookup k).map (fun v => k ++ ": \"" ++ v ++ "\"" ++ "\n")
  | .multiline k =>
    (fields.lookup k).map (fun v => k ++ ": \"\"\"" ++ "\n" ++ v ++ "\n" ++ "\"\"\"" ++ "\n")

/-- Concatenation of the per-entry writes of emitTestDict. -/
def emitWith (fields : List (String × String)) : List EmitEntry → Option String
  | [] => some ""
  | e :: rest =>
    match emitEntry fields e, emitWith fields rest with
    | some s, some t => some (s ++ t)
    | _, _ => none

/-- emitTestDict of testParser.py: replay the emit log against the
current field values. -/
def emitTestDict (t : ParsedTest) : Option String :=
  emitWith t.fields t.emitLog

/-- The byte sequence of a file given as its line list, every line
terminated by a newline. -/
def linesText : List String → String
  | [] => ""
  | l :: rest => l ++ "\n" ++ linesText rest

example : parseFile ["a: \"b\" # c"] = .ok ⟨[.oneline "a"], [("a", "b")]⟩ := by rfl
example : emitTestDict ⟨[.oneline "a"], [("a", "b")]⟩ = some "a: \"b\"\n" := by rfl
example : parseFile ["k: \"\"\"", "x", "\"\"\""] = .ok ⟨[.multiline "k"], [("k", "x")]⟩ := by rfl
example : parseFile ["oops"] = .error (.invalidFormat 1) := by rfl
example : parseFile ["k: \"\"\"", "x"] = .error .unterminated := by rfl
example : parseFile ["# note", " ", "a: \"1\""] =
    .ok ⟨[.raw "# note", .raw " ", .oneline "a"], [("a", "1")]⟩ := by rfl

/- ------------------------------------------------------------------ -/
/- Canonical test files and the round-trip property (claim C1)         -/
/- ------------------------------------------------------------------ -/

/-- The exact text emitTestDict writes for a one-line field. -/
def mkOneline (k v : String) : String := k ++ ": \"" ++ v ++ "\""

/-- The exact opener line emitTestDict writes for a multi-line field. -/
def mkMultiOpen (k : String) : String := k ++ ": \"\"\""

/-- The exact closing line emitTestDict writes for a multi-line field. -/
def tripleQuote : String := "\"\"\""

lemma all_space_no_quote (cs : List Char) (h : cs.all pyIsSpace = true) :
    cs.dropWhile (fun c => c != '"') = [] := by
  rw [List.dropWhile_eq_nil_iff]
  intro x hx
  have hs : pyIsSpace x = true := List.all_eq_true.mp h x hx
  simp only [pyIsSpace, Bool.or_eq_true, beq_iff_eq] at hs
  rcases hs with ((((h1 | h1) | h1) | h1) | h1) | h1 <;> subst h1 <;> decide

lemma oneline_not_blank {s : String} {k v : String}
    (h : matchOneline s = some (k, v)) : isBlank s = false := by
  by_contra hb
  have hb2 : isBlank s = true := by
    cases e : isBlank s
    · exact absurd e hb
    · rfl
  have h0 : s.toList.dropWhile (fun c => c != '"') = [] :=
    all_space_no_quote _ hb2
  unfold matchOneline at h
  rw [h0] at h
  simp at h

lemma multiOpen_not_blank {s : String} {k : String}
    (h : matchMultiOpen s = some k) : isBlank s = false := by
  by_contra hb
  have hb2 : isBlank s = true := by
    cases e : isBlank s
    · exact absurd e hb
    · rfl
  have h0 : s.toList.dropWhile (fun c => c != '"') = [] :=
    all_space_no_quote _ hb2
  unfold matchMultiOpen at h
  rw [h0] at h
  simp at h

lemma multiOpen_shape {s : String} {k : String} (h : matchMultiOpen s = some k) :
    ∃ tail, s.toList.dropWhile (fun c => c != '"') = '"' :: '"' :: '"' :: tail ∧
      tail.all pyIsSpace = true := by
  unfold matchMultiOpen at h
  split at h
  · rename_i tail heq
    split at h
    · rename_i hall
      exact ⟨tail, heq, hall⟩
    · simp at h
  · simp at h

lemma multiOpen_not_oneline {s : String} {k : String}
    (h : matchMultiOpen s = some k) : matchOneline s = none := by
  obtain ⟨tail, he, hall⟩ := multiOpen_shape h
  unfold matchOneline
  rw [he]
  simp [List.dropWhile_cons, pyIsSpace]

lemma lookup_append_of_ne (f g : List (String × String)) (k : String)
    (h : ∀ kv ∈ f, kv.1 ≠ k) : (f ++ g).lookup k = g.lookup k := by
  induction f with
  | nil => simp
  | cons kv rest ih =>
    rcases kv with ⟨a, b⟩
    have ha : (k == a) = false := by
      have h2 : a ≠ k := h (a, b) (by simp)
      simp only [beq_eq_false_iff_ne]
      exact fun e => h2 e.symm
    simp only [List.cons_append, List.lookup, ha]
    exact ih (fun kv hkv => h kv (by simp [hkv]))

lemma linesText_append (a b : List String) :
    linesText (a ++ b) = linesText a ++ linesText b := by
  induction a with
  | nil => simp [linesText, String.empty_append]
  | cons l rest ih => simp [linesText, ih, String.append_assoc]

lemma joinNL_linesText (body : List String) (h : body ≠ []) :
    joinNL body ++ "\n" = linesText body := by
  induction body with
  | nil => exact absurd rfl h
  | cons l rest ih =>
    cases rest with
    | nil => simp [joinNL, linesText, String.append_empty]
    | cons m r =>
      have h2 := ih (by simp)
      simp only [joinNL, linesText, String.append_assoc] at h2 ⊢
      rw [h2]

/-- Canonical form of a test file, relative to the set ks of field keys
already used by earlier lines.  A canonical line is either emitted
verbatim (a line that is blank after comment stripping, which covers
blank lines and whole-line comments), or a field line written exactly the
way emitTestDict re-serialises it; field keys are pairwise distinct and
avoid the reserved dictionary key of the emit log, and a multi-line block
has at least one body line and is closed by a bare triple quote. -/
inductive CanonLines : List String → List String → Prop where
  | nil (ks : List String) : CanonLines ks []
  | blank (ks : List String) (rawLine : String) (rest : List String) :
      isBlank (stripComment rawLine) = true →
      CanonLines ks rest →
      CanonLines ks (rawLine :: rest)
  | oneline (ks : List String) (rawLine : String) (rest : List String) (k v : String) :
      matchOneline (stripComment rawLine) = some (k, v) →
      rawLine = mkOneline k v →
      k ∉ ks → k ≠ "__emit__" →
      CanonLines (k :: ks) rest →
      CanonLines ks (rawLine :: rest)
  | multiline (ks : List String) (rawLine : String) (body rest : List String) (k : String) :
      matchMultiOpen (stripComment rawLine) = some k →
      rawLine = mkMultiOpen k →
      (∀ l ∈ body, isMultiClose (stripComment l) = false) →
      body ≠ [] →
      k ∉ ks → k ≠ "__emit__" →
      CanonLines (k :: ks) rest →
      CanonLines ks (rawLine :: (body ++ tripleQuote :: rest))

/-- A canonical test file: canonical lines with no keys used yet, and the
last line does not strip to the empty string (otherwise the Python
join/splitlines round through removeComments drops it from the loop). -/
def CanonFile (lines : List String) : Prop :=
  CanonLines [] lines ∧ (lines.map stripComment).getLast? ≠ some ""

lemma parseLines_body (body : List String) :
    ∀ (i : Nat) log fields (k : String) (acc rest : List String),
      (∀ l ∈ body, isMultiClose (stripComment l) = false) →
      k ≠ "__emit__" →
      parseLines i log fields (.inMulti k acc) (body ++ tripleQuote :: rest) =
      parseLines (i + body.length + 1) (log ++ [.multiline k])
        ((k, joinNL (acc.reverse ++ body)) :: fields) .top rest := by
  induction body with
  | nil =>
    intro i log fields k acc rest _ hk
    have hc : isMultiClose (stripComment tripleQuote) = true := by decide
    simp [parseLines, hc, hk]
  | cons b body ih =>
    intro i log fields k acc rest hb hk
    have hb1 : isMultiClose (stripComment b) = false := hb b (by simp)
    have hb2 : ∀ l ∈ body, isMultiClose (stripComment l) = false :=
      fun l hl => hb l (by simp [hl])
    simp only [List.cons_append, parseLines, hb1, if_false, Bool.false_eq_true,
      List.append_eq]
    rw [ih (i+1) log fields k (b :: acc) rest hb2 hk]
    have hidx : i + 1 + body.length + 1 = i + (body.length + 1) + 1 := by omega
    rw [hidx]
    simp [List.reverse_cons, List.append_assoc]

lemma canon_parse {ks lines : List String} (h : CanonLines ks lines) :
    ∀ (i : Nat) (log : List EmitEntry) (fields : List (String × String)),
      ∃ log2 fields2,
        parseLines i log fields .top lines = .ok (log ++ log2, fields2 ++ fields) ∧
        (∀ kv ∈ fields2, kv.1 ∉ ks) ∧
        (∀ g, emitWith (fields2 ++ g) log2 = some (linesText lines)) := by
  induction h with
  | nil ks =>
    intro i log fields
    exact ⟨[], [], by simp [parseLines], by simp, fun g => by simp [emitWith, linesText]⟩
  | blank ks rawLine rest hblank hrest ih =>
    intro i log fields
    obtain ⟨log2, fields2, hp, hf, he⟩ := ih (i+1) (log ++ [.raw rawLine]) fields
    refine ⟨.raw rawLine :: log2, fields2, ?_, hf, ?_⟩
    · simp only [parseLines, hblank, if_true]
      rw [hp]
      simp [List.append_assoc]
    · intro g
      simp [emitWith, emitEntry, he g, linesText]
  | oneline ks rawLine rest k v hm hraw hks hres hrest ih =>
    intro i log fields
    obtain ⟨log2, fields2, hp, hf, he⟩ := ih (i+1) (log ++ [.oneline k]) ((k, v) :: fields)
    refine ⟨.oneline k :: log2, fields2 ++ [(k, v)], ?_, ?_, ?_⟩
    · have hnb := oneline_not_blank hm
      have hres2 : ¬ ((k, v).1 = "__emit__") := hres
      simp only [parseLines, hnb, Bool.false_eq_true, if_false, hm, if_neg hres2]
      rw [hp]
      simp [List.append_assoc]
    · intro kv hkv
      rcases List.mem_append.mp hkv with h1 | h1
      · exact fun hmem => hf kv h1 (List.mem_cons_of_mem _ hmem)
      · have : kv = (k, v) := by simpa using h1
        rw [this]
        exact hks
    · intro g
      have hk2 : ∀ kv ∈ fields2, kv.1 ≠ k := by
        intro kv hkv e
        exact hf kv hkv (e ▸ List.mem_cons_self k ks)
      have hlk : ((fields2 ++ [(k, v)]) ++ g).lookup k = some v := by
        rw [List.append_assoc, lookup_append_of_ne _ _ _ hk2]
        simp [List.lookup]
      have he2 := he ([(k, v)] ++ g)
      rw [← List.append_assoc] at he2
      simp only [emitWith, emitEntry, hlk, Option.map_some, he2, linesText, hraw, mkOneline]
      simp [String.append_assoc]
  | multiline ks rawLine body rest k hm hraw hbody hbodyne hks hres hrest ih =>
    intro i log fields
    obtain ⟨log2, fields2, hp, hf, he⟩ :=
      ih (i + body.length + 2) (log ++ [.multiline k]) ((k, joinNL body) :: fields)
    refine ⟨.multiline k :: log2, fields2 ++ [(k, joinNL body)], ?_, ?_, ?_⟩
    · have hnb := multiOpen_not_blank hm
      have hno := multiOpen_not_oneline hm
      simp only [parseLines, hnb, Bool.false_eq_true, if_false, hno, hm]
      rw [parseLines_body body (i+1) log fields k [] rest hbody hres]
      have hidx : i + 1 + body.length + 1 = i + body.length + 2 := by omega
      rw [hidx]
      simp only [List.reverse_nil, List.nil_append]
      rw [hp]
      simp [List.append_assoc]
    · intro kv hkv
      rcases List.mem_append.mp hkv with h1 | h1
      · exact fun hmem => hf kv h1 (List.mem_cons_of_mem _ hmem)
      · have : kv = (k, joinNL body) := by simpa using h1
        rw [this]
        exact hks
    · intro g
      have hk2 : ∀ kv ∈ fields2, kv.1 ≠ k := by
        intro kv hkv e
        exact hf kv hkv (e ▸ List.mem_cons_self k ks)
      have hlk : ((fields2 ++ [(k, joinNL body)]) ++ g).lookup k = some (joinNL body) := by
        rw [List.append_assoc, lookup_append_of_ne _ _ _ hk2]
        simp [List.lookup]
      have he2 := he ([(k, joinNL body)] ++ g)
      rw [← List.append_assoc] at he2
      have hjl := joinNL_linesText body hbodyne
      simp only [emitWith, emitEntry, hlk, Option.map_some, he2, linesText,
        linesText_append, hraw, mkMultiOpen, tripleQuote, ← hjl]
      simp [String.append_assoc]
      have hlit : ("\n\"\"\"\n" : String) = "\n" ++ "\"\"\"\n" := by decide
      rw [hlit, String.append_assoc]

/-- Counterexample to claim C1 as stated: the file consisting of the single
line a: "b" # c is syntactically valid (parse succeeds), but re-emission
drops the trailing comment, so emit(parse(file)) is not the original byte
sequence. -/
theorem c1_roundtrip_counterexample :
    parseFile ["a: \"b\" # c"] = .ok ⟨[.oneline "a"], [("a", "b")]⟩ ∧
    emitTestDict ⟨[.oneline "a"], [("a", "b")]⟩ = some "a: \"b\"\n" ∧
    ¬ ("a: \"b\"\n" = linesText ["a: \"b\" # c"]) :=
  ⟨by rfl, by rfl, by decide⟩

/-- Claim C1 (amended): emitTestDict applied to the record produced by
parseFile reproduces the original file byte-for-byte for every canonical
test file: blank lines and whole-line comments are preserved verbatim,
one-line fields are written exactly as key: "value" with no trailing
comment, multi-line blocks have the exact opener key: triple-quote, a
nonempty body and a bare triple-quote closer, field keys are pairwise
distinct and none is the reserved emit-log key, and the last line does
not strip to the empty string.  Trailing comments or extra spacing on
field lines, empty multi-line bodies, duplicate keys, or a final line
that strips to nothing are re-serialised in normal form and break the
byte-for-byte property. -/
theorem c1_roundtrip_canonical (lines : List String) (h : CanonFile lines) :
    ∃ r, parseFile lines = .ok r ∧ emitTestDict r = some (linesText lines) := by
  obtain ⟨hc, hlast⟩ := h
  obtain ⟨log2, fields2, hp, hf, he⟩ := canon_parse hc 0 [] []
  refine ⟨⟨log2, fields2⟩, ?_, ?_⟩
  · unfold parseFile effectiveRawLines
    rw [if_neg hlast, hp]
    simp
  · have h2 := he []
    rw [List.append_nil] at h2
    exact h2

/-- Concrete canonical test file used to witness the amended claim C1. -/
def demoCanonFile : List String :=
  ["# demo", "", "a: \"1\"", "body: \"\"\"", "line1 # kept", "\"\"\""]

/-- Witness for the amended claim C1 at a concrete canonical file with a
comment line, a blank line, a one-line field and a multi-line block. -/
theorem c1_roundtrip_canonical_witness :
    ∃ r, parseFile demoCanonFile = .ok r ∧
      emitTestDict r = some (linesText demoCanonFile) :=
  c1_roundtrip_canonical demoCanonFile
    ⟨CanonLines.blank [] "# demo" _ (by decide)
      (CanonLines.blank [] "" _ (by decide)
        (CanonLines.oneline [] "a: \"1\"" _ "a" "1" (by decide) (by decide)
          (by decide) (by decide)
          (CanonLines.multiline ["a"] "body: \"\"\"" ["line1 # kept"] [] "body"
            (by decide) (by decide) (by decide) (by decide) (by decide) (by decide)
            (CanonLines.nil _)))),
     by decide⟩

/- ------------------------------------------------------------------ -/
/- Parse failures (claim C8)                                           -/
/- ------------------------------------------------------------------ -/

lemma parseLines_append (suf : List String) :
    ∀ (pre : List String) (i : Nat) log fields mode lg f,
      parseLines i log fields mode pre = .ok (lg, f) →
      parseLines i log fields mode (pre ++ suf) =
        parseLines (i + pre.length) lg f .top suf := by
  intro pre
  induction pre with
  | nil =>
    intro i log fields mode lg f h
    cases mode with
    | top =>
      simp only [parseLines, Except.ok.injEq, Prod.mk.injEq] at h
      obtain ⟨h1, h2⟩ := h
      subst h1; subst h2
      simp
    | inMulti k acc => simp [parseLines] at h
  | cons rawLine rest ih =>
    intro i log fields mode lg f h
    cases mode with
    | top =>
      have hlen : i + (rawLine :: rest).length = (i + 1) + rest.length := by
        simp [List.length_cons]; omega
      cases hb : isBlank (stripComment rawLine) with
      | true =>
        simp only [parseLines, hb, if_true] at h
        simp only [List.cons_append, parseLines, hb, if_true]
        rw [hlen]
        exact ih _ _ _ _ _ _ h
      | false =>
        rcases e1 : matchOneline (stripComment rawLine) with _ | kv
        · rcases e2 : matchMultiOpen (stripComment rawLine) with _ | k
          · simp only [parseLines, hb, e1, e2, Bool.false_eq_true, if_false] at h
            exact absurd h (by simp)
          · simp only [parseLines, hb, e1, e2, Bool.false_eq_true, if_false] at h
            simp only [List.cons_append, parseLines, hb, e1, e2, Bool.false_eq_true, if_false]
            rw [hlen]
            exact ih _ _ _ _ _ _ h
        · by_cases he : kv.1 = "__emit__"
          · simp only [parseLines, hb, e1, Bool.false_eq_true, if_false, if_pos he] at h
            exact absurd h (by simp)
          · simp only [parseLines, hb, e1, Bool.false_eq_true, if_false, if_neg he] at h
            simp only [List.cons_append, parseLines, hb, e1, Bool.false_eq_true,
              if_false, if_neg he]
            rw [hlen]
            exact ih _ _ _ _ _ _ h
    | inMulti k acc =>
      have hlen : i + (rawLine :: rest).length = (i + 1) + rest.length := by
        simp [List.length_cons]; omega
      cases hc : isMultiClose (stripComment rawLine) with
      | true =>
        by_cases he : k = "__emit__"
        · simp only [parseLines, hc, if_true, if_pos he] at h
          exact absurd h (by simp)
        · simp only [parseLines, hc, if_true, if_neg he] at h
          simp only [List.cons_append, parseLines, hc, if_true, if_neg he]
          rw [hlen]
          exact ih _ _ _ _ _ _ h
      | false =>
        simp only [parseLines, hc, Bool.false_eq_true, if_false] at h
        simp only [List.cons_append, parseLines, hc, Bool.false_eq_true, if_false]
        rw [hlen]
        exact ih _ _ _ _ _ _ h

lemma parseLines_unterminated (post : List String) :
    ∀ (i : Nat) log fields (k : String) (acc : List String),
      (∀ l ∈ post, isMultiClose (stripComment l) = false) →
      parseLines i log fields (.inMulti k acc) post = .error .unterminated := by
  induction post with
  | nil => intro i log fields k acc _; simp [parseLines]
  | cons b rest ih =>
    intro i log fields k acc hpost
    have h1 : isMultiClose (stripComment b) = false := hpost b (by simp)
    have h2 : ∀ l ∈ rest, isMultiClose (stripComment l) = false :=
      fun l hl => hpost l (by simp [hl])
    simp only [parseLines, h1, Bool.false_eq_true, if_false]
    exact ih _ _ _ _ _ h2

/-- Claim C8 (amended): parse failures are of the FormatError kind only
as long as no field line binding the reserved emit-log key __emit__ is
parsed first.  Part one: a multi-line opener whose closing triple-quote
line never appears afterwards makes parse fail with the
unterminated-multiline ValueError, provided the lines before the opener
parse successfully and bind no field named __emit__ (otherwise the loop
never reaches the opener).  Part two: under the same proviso, a line
that is neither blank, nor a scalar field, nor a multi-line opener after
comment stripping fails with the invalid-format ValueError reporting the
1-based line number.  Part three: a scalar field line whose key is
__emit__ makes parse fail with AttributeError — an exception that is not
of the FormatError kind — whatever follows it. -/
theorem c8_format_errors :
    (∀ (pre : List String) lg f (opener : String) (k : String) (post : List String),
      parseLines 0 [] [] .top pre = .ok (lg, f) →
      (∀ kv ∈ f, kv.1 ≠ "__emit__") →
      matchMultiOpen (stripComment opener) = some k →
      (∀ l ∈ post, isMultiClose (stripComment l) = false) →
      parseFile (pre ++ opener :: post) = .error .unterminated) ∧
    (∀ (pre : List String) lg f (bad : String) (post : List String),
      parseLines 0 [] [] .top pre = .ok (lg, f) →
      (∀ kv ∈ f, kv.1 ≠ "__emit__") →
      isBlank (stripComment bad) = false →
      matchOneline (stripComment bad) = none →
      matchMultiOpen (stripComment bad) = none →
      parseFile (pre ++ bad :: post) = .error (.invalidFormat (pre.length + 1))) ∧
    (∀ (pre : List String) lg f (emitLine v : String) (post : List String),
      parseLines 0 [] [] .top pre = .ok (lg, f) →
      (∀ kv ∈ f, kv.1 ≠ "__emit__") →
      matchOneline (stripComment emitLine) = some ("__emit__", v) →
      parseFile (pre ++ emitLine :: post) = .error .attributeError) := by
  refine ⟨?_, ?_, ?_⟩
  · intro pre lg f opener k post hpre hf hm hpost
    have hchain : ∀ post2, (∀ l ∈ post2, isMultiClose (stripComment l) = false) →
        parseLines 0 [] [] .top (pre ++ opener :: post2) = .error .unterminated := by
      intro post2 hp2
      rw [parseLines_append (opener :: post2) pre 0 [] [] .top lg f hpre]
      have hnb := multiOpen_not_blank hm
      have hno := multiOpen_not_oneline hm
      simp only [parseLines, hnb, Bool.false_eq_true, if_false, hno, hm]
      exact parseLines_unterminated post2 _ _ _ _ _ hp2
    unfold parseFile effectiveRawLines
    by_cases hl : ((pre ++ opener :: post).map stripComment).getLast? = some ""
    · have hpostne : post ≠ [] := by
        intro he0
        subst he0
        have hconc : pre ++ [opener] = pre ++ [opener] := rfl
        simp only [List.map_append, List.map_cons, List.map_nil] at hl
        rw [List.getLast?_concat] at hl
        have hse : stripComment opener = "" := by
          simpa using hl
        rw [hse] at hm
        have : matchMultiOpen "" = none := by decide
        rw [this] at hm
        exact absurd hm (by simp)
      have hdl : (pre ++ opener :: post).dropLast = pre ++ opener :: post.dropLast := by
        have h3 : pre ++ opener :: post = (pre ++ [opener]) ++ post := by simp
        rw [h3, List.dropLast_append_of_ne_nil _ hpostne]
        simp
      rw [if_pos hl, hdl,
        hchain post.dropLast (fun l hl2 => hpost l (List.dropLast_subset post hl2))]
    · rw [if_neg hl, hchain post hpost]
  · intro pre lg f bad post hpre hf hb ho hmo
    have hchain : ∀ post2,
        parseLines 0 [] [] .top (pre ++ bad :: post2) =
          .error (.invalidFormat (pre.length + 1)) := by
      intro post2
      rw [parseLines_append (bad :: post2) pre 0 [] [] .top lg f hpre]
      simp [parseLines, hb, ho, hmo]
    unfold parseFile effectiveRawLines
    by_cases hl : ((pre ++ bad :: post).map stripComment).getLast? = some ""
    · have hpostne : post ≠ [] := by
        intro he0
        subst he0
        simp only [List.map_append, List.map_cons, List.map_nil] at hl
        rw [List.getLast?_concat] at hl
        have hse : stripComment bad = "" := by simpa using hl
        rw [hse] at hb
        exact absurd hb (by decide)
      have hdl : (pre ++ bad :: post).dropLast = pre ++ bad :: post.dropLast := by
        have h3 : pre ++ bad :: post = (pre ++ [bad]) ++ post := by simp
        rw [h3, List.dropLast_append_of_ne_nil _ hpostne]
        simp
      rw [if_pos hl, hdl, hchain post.dropLast]
    · rw [if_neg hl, hchain post]
  · intro pre lg f emitLine v post hpre hf hm
    have hnb := oneline_not_blank hm
    have hchain : ∀ post2,
        parseLines 0 [] [] .top (pre ++ emitLine :: post2) =
          .error .attributeError := by
      intro post2
      rw [parseLines_append (emitLine :: post2) pre 0 [] [] .top lg f hpre]
      simp [parseLines, hnb, hm]
    unfold parseFile effectiveRawLines
    by_cases hl : ((pre ++ emitLine :: post).map stripComment).getLast? = some ""
    · have hpostne : post ≠ [] := by
        intro he0
        subst he0
        simp only [List.map_append, List.map_cons, List.map_nil] at hl
        rw [List.getLast?_concat] at hl
        have hse : stripComment emitLine = "" := by simpa using hl
        rw [hse] at hnb
        exact absurd hnb (by decide)
      have hdl : (pre ++ emitLine :: post).dropLast = pre ++ emitLine :: post.dropLast := by
        have h3 : pre ++ emitLine :: post = (pre ++ [emitLine]) ++ post := by simp
        rw [h3, List.dropLast_append_of_ne_nil _ hpostne]
        simp
      rw [if_pos hl, hdl, hchain post.dropLast]
    · rw [if_neg hl, hchain post]

/-- Counterexample to claim C8 as stated: the file whose first line is
the field __emit__: "x" and whose second line is the multi-line opener
k: triple-quote contains an opener whose closing line never appears
before end of file, yet parse does not fail with the FormatError kind:
the __emit__ field overwrites the emit-log list and the append that
follows raises AttributeError, an unrelated exception, before the
opener is ever reached. -/
theorem c8_format_errors_counterexample :
    parseFile ["__emit__: \"x\"", "k: \"\"\""] = .error .attributeError ∧
    ParseError.attributeError.isFormatError = false ∧
    matchMultiOpen (stripComment "k: \"\"\"") = some "k" := by
  refine ⟨by rfl, by decide, by decide⟩

/-- Witness for the amended claim C8: an unterminated block after a
parsed field line fails with the unterminated ValueError, the malformed
line oops fails with the invalid-format ValueError at line 2, and a
field line named __emit__ after a parsed field line fails with
AttributeError. -/
theorem c8_format_errors_witness :
    parseFile ["a: \"1\"", "k: \"\"\"", "x y"] = .error .unterminated ∧
    parseFile ["a: \"1\"", "oops"] = .error (.invalidFormat 2) ∧
    parseFile ["a: \"1\"", "__emit__: \"x\"", "b: \"2\""] = .error .attributeError :=
  ⟨c8_format_errors.1 ["a: \"1\""] [.oneline "a"] [("a", "1")] "k: \"\"\"" "k" ["x y"]
    (by rfl) (by decide) (by decide) (by decide),
   c8_format_errors.2.1 ["a: \"1\""] [.oneline "a"] [("a", "1")] "oops" []
    (by rfl) (by decide) (by decide) (by decide) (by decide),
   c8_format_errors.2.2 ["a: \"1\""] [.oneline "a"] [("a", "1")] "__emit__: \"x\"" "x"
    ["b: \"2\""] (by rfl) (by decide) (by decide)⟩

/- ------------------------------------------------------------------ -/
/- Question grading policies: src/p0/tutorial/testClasses.py           -/
/- ------------------------------------------------------------------ -/

/-- One (testCase, thunk) pair of a Question.  result is the boolean the
thunk returns; effect is the aggregate effect of the grades calls the
thunk itself makes on the current question point total (the tutorial
EvalTest thunks only add messages, so their effect is the identity);
pointsField models float(testCase.testDict["points"]) when the test
record declares a points field.  Declared points are modelled as
integers: the test records of this repository declare integral points,
for which the float sum and the int() truncation of the source are
exact. -/
structure TestThunk where
  result : Bool
  effect : Int → Int
  pointsField : Option Int

/-- The grades calls a Question.execute variant performs, in order.
runTest i is the evaluation of the i-th thunk of self.testCases. -/
inductive QuestionOp where
  | runTest (i : Nat)
  | assignZeroCredit
  | assignFullCredit
  | addPoints (n : Int)
  | fail (m : String)
deriving DecidableEq

/-- Effect on the current question point total of one grades call, as
implemented by Grades: assignZeroCredit sets 0, assignFullCredit sets the
max, addPoints adds, fail zeroes (and records a message), and running a
thunk applies the effect of that thunk. -/
def applyQOp (tests : List TestThunk) (maxPoints : Int) (p : Int) : QuestionOp → Int
  | .runTest i =>
    match tests[i]? with
    | some t => t.effect p
    | none => p
  | .assignZeroCredit => 0
  | .assignFullCredit => maxPoints
  | .addPoints n => p + n
  | .fail _ => 0

/-- Current question point total after a trace of grades calls, starting
from the prior ledger value p0.  The ledger max for the current question
is the Question max_points, as Grades is constructed with the same
question list. -/
def runTrace (tests : List TestThunk) (maxPoints : Int) (p0 : Int)
    (tr : List QuestionOp) : Int :=
  tr.foldl (applyQOp tests maxPoints) p0

/-- PassAllTestsQuestion.execute: zero credit first, run every thunk in
declaration order, then fail if any returned false else full credit. -/
def passAllTrace (tests : List TestThunk) : List QuestionOp :=
  .assignZeroCredit :: ((List.range tests.length).map .runTest ++
    [if tests.all (fun t => t.result) then .assignFullCredit else .fail "Tests failed."])

/-- ExtraCreditPassAllTestsQuestion.execute: as passAllTrace plus the
extra points added after full credit when every thunk passed. -/
def extraCreditTrace (extraPoints : Int) (tests : List TestThunk) : List QuestionOp :=
  .assignZeroCredit :: ((List.range tests.length).map .runTest ++
    (if tests.all (fun t => t.result) then [.assignFullCredit, .addPoints extraPoints]
     else [.fail "Tests failed."]))

/-- The points accumulated by HackedPartialCreditQuestion.execute:
sum of the declared points of the passing tests that declare points
(the float sum of the source, exact for integral declared points). -/
def hackedPoints (tests : List TestThunk) : Int :=
  tests.foldl
    (fun acc t =>
      match t.pointsField with
      | some p => if t.result then acc + p else acc
      | none => acc) 0

/-- The passed flag of HackedPartialCreditQuestion.execute: it is only
updated by tests WITHOUT a declared points field. -/
def hackedPassed (tests : List TestThunk) : Bool :=
  tests.foldl
    (fun acc t =>
      match t.pointsField with
      | some _ => acc
      | none => acc && t.result) true

/-- HackedPartialCreditQuestion.execute: zero credit, run all thunks,
then the q3 edge case: zero credit again when int(points) equals
max_points and the passed flag is false, else add int(points). -/
def hackedTrace (maxPoints : Int) (tests : List TestThunk) : List QuestionOp :=
  .assignZeroCredit :: ((List.range tests.length).map .runTest ++
    [if hackedPoints tests = maxPoints ∧ hackedPassed tests = false
     then .assignZeroCredit
     else .addPoints (hackedPoints tests)])

/-- NumberPassedQuestion.execute: run all thunks, then add the count of
true results.  No assignZeroCredit call appears anywhere. -/
def numberPassedTrace (tests : List TestThunk) : List QuestionOp :=
  (List.range tests.length).map .runTest ++
    [.addPoints (tests.countP (fun t => t.result) : Int)]

lemma runTrace_runTests_id (tests : List TestThunk) (maxPoints : Int)
    (hid : ∀ t ∈ tests, t.effect = id) :
    ∀ (l : List Nat) (p : Int),
      List.foldl (applyQOp tests maxPoints) p (l.map .runTest) = p := by
  intro l
  induction l with
  | nil => intro p; simp
  | cons a l ih =>
    intro p
    simp only [List.map_cons, List.foldl_cons]
    have h1 : applyQOp tests maxPoints p (.runTest a) = p := by
      simp only [applyQOp]
      rcases e : tests[a]? with _ | t
      · rfl
      · obtain ⟨hlt, rfl⟩ := List.getElem?_eq_some.mp e
        simp [hid _ (List.getElem_mem hlt)]
    rw [h1, ih]

/-- Claim C7: all-pass policy.  For every thunk list (whatever the
thunks themselves do to the score) PassAllTestsQuestion.execute leaves
the question at max_points when every thunk returned true, and at 0 when
any thunk returned false, whatever the prior ledger value was. -/
theorem c7_all_pass (tests : List TestThunk) (maxPoints p0 : Int) :
    runTrace tests maxPoints p0 (passAllTrace tests) =
      if tests.all (fun t => t.result) then maxPoints else 0 := by
  unfold runTrace passAllTrace
  cases h : tests.all (fun t => t.result) with
  | true => simp [h, List.foldl_append, applyQOp]
  | false => simp [h, List.foldl_append, applyQOp]

lemma foldl_passed_all_declared :
    ∀ (tests : List TestThunk) (acc : Bool),
      (∀ t ∈ tests, t.pointsField ≠ none) →
      List.foldl
        (fun a t => match t.pointsField with | some _ => a | none => a && t.result)
        acc tests = acc := by
  intro tests
  induction tests with
  | nil => intro acc _; rfl
  | cons t rest ih =>
    intro acc hall
    rcases e : t.pointsField with _ | p
    · exact absurd e (hall t (by simp))
    · simp only [List.foldl_cons, e]
      exact ih acc (fun t2 h2 => hall t2 (by simp [h2]))

/-- Counterexample to claim C3 as stated: three tests that all declare
their own points (3, 2 and 4) with max_points 5; the passing tests sum to
exactly 5 and one test failed, yet the code awards 5 rather than forcing
0, because the passed flag of HackedPartialCreditQuestion.execute is only
ever updated by tests WITHOUT a declared points field. -/
theorem c3_hacked_credit_counterexample :
    runTrace [⟨true, id, some 3⟩, ⟨true, id, some 2⟩, ⟨false, id, some 4⟩] 5 0
      (hackedTrace 5 [⟨true, id, some 3⟩, ⟨true, id, some 2⟩, ⟨false, id, some 4⟩]) = 5 ∧
    (5 : Int) ≠ 0 := by
  refine ⟨by decide, by decide⟩

/-- Claim C3 (amended): HackedPartialCreditQuestion.execute awards
int(sum of the declared points of the passing tests), except that the
credit is forced to 0 exactly when that truncated sum equals max_points
AND some test without a declared points field returned false.  In
particular, when every test declares its own points the special case can
never fire and the truncated sum is always awarded, even if a test
failed while the passing points sum to exactly max_points. -/
theorem c3_hacked_credit_amended (maxPoints p0 : Int) (tests : List TestThunk)
    (hid : ∀ t ∈ tests, t.effect = id) :
    (runTrace tests maxPoints p0 (hackedTrace maxPoints tests) =
      if hackedPoints tests = maxPoints ∧ hackedPassed tests = false
      then 0 else hackedPoints tests) ∧
    ((∀ t ∈ tests, t.pointsField ≠ none) →
      runTrace tests maxPoints p0 (hackedTrace maxPoints tests) =
        hackedPoints tests) := by
  have hmain : runTrace tests maxPoints p0 (hackedTrace maxPoints tests) =
      if hackedPoints tests = maxPoints ∧ hackedPassed tests = false
      then 0 else hackedPoints tests := by
    unfold runTrace hackedTrace
    by_cases h : hackedPoints tests = maxPoints ∧ hackedPassed tests = false
    · rw [if_pos h, if_pos h]
      simp only [List.foldl_cons, applyQOp, List.foldl_append, List.foldl_nil,
        runTrace_runTests_id tests maxPoints hid]
    · rw [if_neg h, if_neg h]
      simp only [List.foldl_cons, applyQOp, List.foldl_append, List.foldl_nil,
        runTrace_runTests_id tests maxPoints hid]
      omega
  refine ⟨hmain, ?_⟩
  intro hall
  rw [hmain]
  have hpassed : hackedPassed tests = true :=
    foldl_passed_all_declared tests true hall
  simp [hpassed]

/-- Witness for the amended claim C3: one passing test declaring 2 points
(so the truncated sum equals max_points 2) together with one failing test
without a points field triggers the defensive zero, from any prior ledger
value. -/
theorem c3_hacked_credit_amended_witness :
    runTrace [⟨true, id, some 2⟩, ⟨false, id, none⟩] 2 7
      (hackedTrace 2 [⟨true, id, some 2⟩, ⟨false, id, none⟩]) = 0 := by
  have h := (c3_hacked_credit_amended 2 7 [⟨true, id, some 2⟩, ⟨false, id, none⟩]
    (by intro t ht; fin_cases ht <;> rfl)).1
  rw [h]
  decide

/-- Counterexample to claim C5 as stated: the count-of-passes variant
(NumberPassedQuestion.execute) never calls assignZeroCredit, so its point
total does not start from a zero baseline: with prior ledger value 5 and
one passing thunk the final total is 6. -/
theorem c5_zero_baseline_counterexample :
    numberPassedTrace [⟨true, id, none⟩] = [.runTest 0, .addPoints 1] ∧
    QuestionOp.assignZeroCredit ∉ numberPassedTrace [⟨true, id, none⟩] ∧
    runTrace [⟨true, id, none⟩] 3 5 (numberPassedTrace [⟨true, id, none⟩]) = 6 := by
  refine ⟨by decide, by decide, by decide⟩

/-- Claim C5 (amended): the all-pass, all-pass-plus-extra and
partial-by-test-points variants each call assignZeroCredit as their very
first grades call, before evaluating any thunk; the count-of-passes
variant does not call it at all, and simply adds the count of passing
thunks to whatever point total the ledger already holds. -/
theorem c5_zero_baseline_amended :
    (∀ tests : List TestThunk,
      (passAllTrace tests).head? = some .assignZeroCredit) ∧
    (∀ (extraPoints : Int) (tests : List TestThunk),
      (extraCreditTrace extraPoints tests).head? = some .assignZeroCredit) ∧
    (∀ (maxPoints : Int) (tests : List TestThunk),
      (hackedTrace maxPoints tests).head? = some .assignZeroCredit) ∧
    (∀ (tests : List TestThunk) (maxPoints p0 : Int),
      (∀ t ∈ tests, t.effect = id) →
      runTrace tests maxPoints p0 (numberPassedTrace tests) =
        p0 + (tests.countP (fun t => t.result) : Int)) := by
  refine ⟨fun tests => rfl, fun e tests => rfl, fun m tests => rfl, ?_⟩
  intro tests maxPoints p0 hid
  unfold runTrace numberPassedTrace
  rw [List.foldl_append, runTrace_runTests_id tests maxPoints hid]
  simp [applyQOp]

/-- Witness for the amended claim C5: with prior ledger value 5, one
passing and one failing thunk, the count-of-passes variant ends at 5 + 1. -/
theorem c5_zero_baseline_amended_witness :
    runTrace [⟨true, id, none⟩, ⟨false, id, none⟩] 3 5
      (numberPassedTrace [⟨true, id, none⟩, ⟨false, id, none⟩]) = 5 + 1 :=
  c5_zero_baseline_amended.2.2.2 [⟨true, id, none⟩, ⟨false, id, none⟩] 3 5
    (by intro t ht; fin_cases ht <;> rfl)

/- ------------------------------------------------------------------ -/
/- Grade ledger: src/p0/tutorial/grading.py                            -/
/- ------------------------------------------------------------------ -/

/-- The grades calls a grading function makes through the Grades methods
while its question is current. -/
inductive GradeOp where
  | addMessage (m : String)
  | addPoints (n : Int)
  | deductPoints (n : Int)
  | assignZeroCredit
  | assignFullCredit
  | fail (m : String)
deriving DecidableEq

/-- Ledger state of Grades: the points Counter (missing key reads 0),
the per-question messages in append order as (question, message) pairs,
and the sanity bit.  Messages are recorded without the html escaping of
addMessage, which is the identity on every message this development
states. -/
structure LedgerState where
  points : List (String × Int)
  msgs : List (String × String)
  sane : Bool
deriving DecidableEq

/-- Counter read: self.points[q] with default 0. -/
def getPoints (st : LedgerState) (q : String) : Int :=
  (st.points.lookup q).getD 0

/-- Dict write self.points[q] = v. -/
def setPoints (l : List (String × Int)) (q : String) (v : Int) : List (String × Int) :=
  match l with
  | [] => [(q, v)]
  | (a, b) :: r => if a = q then (q, v) :: r else (a, b) :: setPoints r q v

/-- One Grades method call applied for current question q: addMessage
appends, addPoints and deductPoints adjust the Counter, assignZeroCredit
sets 0, assignFullCredit sets maxes[q], and fail clears the sanity bit,
zeroes the question and records the message. -/
def applyGradeOp (maxes : List (String × Int)) (q : String) (st : LedgerState) :
    GradeOp → LedgerState
  | .addMessage m => { st with msgs := st.msgs ++ [(q, m)] }
  | .addPoints n => { st with points := setPoints st.points q (getPoints st q + n) }
  | .deductPoints n => { st with points := setPoints st.points q (getPoints st q - n) }
  | .assignZeroCredit => { st with points := setPoints st.points q 0 }
  | .assignFullCredit =>
    { st with points := setPoints st.points q ((maxes.lookup q).getD 0) }
  | .fail m =>
    { st with sane := false,
              points := setPoints st.points q 0,
              msgs := st.msgs ++ [(q, m)] }

/-- A sequence of Grades calls applied in order. -/
def applyGradeOps (maxes : List (String × Int)) (q : String)
    (st : LedgerState) (ops : List GradeOp) : LedgerState :=
  ops.foldl (applyGradeOp maxes q) st

/-- How the call util.TimeoutFunction(getattr(module, q), 1800)(self)
ends: normally; raising an Exception with type string ty, message msg
and traceback lines tb; raising TimeoutFunctionException from the
timeout machinery (its str() is empty); or raising a value that does not
derive from Exception, caught by the bare except clause. -/
inductive Thrown where
  | none
  | exc (ty msg : String) (tb : List String)
  | timeout (tb : List String)
  | baseExc

/-- What one grading function does: the Grades calls it performed before
returning or raising, and how it ended. -/
structure QRun where
  ops : List GradeOp
  thrown : Thrown

/-- The str(type(inst)) tag of util.TimeoutFunctionException, used only
for hint lookup (Python renders it with quotes around the dotted name). -/
def tyTimeout : String := "<class util.TimeoutFunctionException>"

/-- Grades.addExceptionMessage: fail with the FAIL Exception-raised
header, a blank message, then every line of traceback.format_exc(). -/
def excMessages (msg : String) (tb : List String) : List GradeOp :=
  .fail ("FAIL: Exception raised: " ++ msg) :: .addMessage "" :: tb.map .addMessage

/-- The question name f-string of Grades.addErrorHints: the letter q
followed by the second character of the question id (ids of length at
least two, as in this repository; shorter ids would raise IndexError in
Python). -/
def qnameOf (q : String) : String :=
  match q.toList with
  | _ :: c :: _ => String.mk ['q', c]
  | _ => "q"

/-- The except clauses of Grades.grade.  A TimeoutFunctionException
derives from Exception, so the timeout case is handled by the same
except-Exception branch as any other exception, with str(inst) empty:
addExceptionMessage then addErrorHints (the hint lines found for the
question name and exception type, modelled as a lookup function).  Only
a raised value outside the Exception hierarchy reaches the bare except
clause with the terminated message. -/
def handleThrown (hints : String → String → List String) (q : String)
    (maxes : List (String × Int)) (st : LedgerState) : Thrown → LedgerState
  | .none => st
  | .exc ty msg tb =>
    applyGradeOps maxes q (applyGradeOps maxes q st (excMessages msg tb))
      ((hints (qnameOf q) ty).map .addMessage)
  | .timeout tb =>
    applyGradeOps maxes q (applyGradeOps maxes q st (excMessages "" tb))
      ((hints (qnameOf q) tyTimeout).map .addMessage)
  | .baseExc =>
    applyGradeOp maxes q st (.fail "FAIL: Terminated with a string exception.")

/-- State of one grading run: ledger, the completed set (kept as a list)
and, as observable instrumentation, the list of questions whose grading
function was actually invoked. -/
structure RunState where
  ledger : LedgerState
  completed : List String
  invoked : List String
deriving DecidableEq

/-- One iteration of the loop of Grades.grade for question q: if some
prerequisite of q is not in the completed set, print a note and skip
(the grading function is not called and the ledger is untouched);
otherwise run the grading function under the 1800-second timeout,
handle how it ended, and add q to the completed set exactly when its
point total reached maxes[q]. -/
def gradeStep (maxes : List (String × Int)) (prereqs : List (String × List String))
    (runs : String → QRun) (hints : String → String → List String)
    (rs : RunState) (q : String) : RunState :=
  if ((prereqs.lookup q).getD []).any (fun p => !(rs.completed.contains p)) then
    rs
  else
    let run := runs q
    let st1 := applyGradeOps maxes q rs.ledger run.ops
    let st2 := handleThrown hints q maxes st1 run.thrown
    { ledger := st2,
      completed :=
        if getPoints st2 q ≥ (maxes.lookup q).getD 0 then rs.completed ++ [q]
        else rs.completed,
      invoked := rs.invoked ++ [q] }

/-- Grades.grade: fold the per-question step over the question list,
starting from the empty ledger, no completed questions and nothing
invoked. -/
def gradeRun (maxes : List (String × Int)) (prereqs : List (String × List String))
    (runs : String → QRun) (hints : String → String → List String)
    (questions : List String) : RunState :=
  questions.foldl (gradeStep maxes prereqs runs hints) ⟨⟨[], [], true⟩, [], []⟩

lemma lookup_setPoints_ne (l : List (String × Int)) (q r : String) (v : Int)
    (h : r ≠ q) : (setPoints l q v).lookup r = l.lookup r := by
  induction l with
  | nil => simp [setPoints, List.lookup, (beq_eq_false_iff_ne).mpr h]
  | cons ab rest ih =>
    rcases ab with ⟨a, b⟩
    unfold setPoints
    by_cases e : a = q
    · subst e
      simp [List.lookup, (beq_eq_false_iff_ne).mpr h]
    · rw [if_neg e]
      cases e2 : (r == a) with
      | true => simp [List.lookup, e2]
      | false => simp [List.lookup, e2, ih]

lemma getPoints_applyGradeOp_ne (maxes : List (String × Int)) (q r : String)
    (st : LedgerState) (op : GradeOp) (h : r ≠ q) :
    getPoints (applyGradeOp maxes q st op) r = getPoints st r := by
  cases op <;>
    simp [applyGradeOp, getPoints, lookup_setPoints_ne _ _ _ _ h]

lemma getPoints_applyGradeOps_ne (maxes : List (String × Int)) (q r : String)
    (h : r ≠ q) :
    ∀ (ops : List GradeOp) (st : LedgerState),
      getPoints (applyGradeOps maxes q st ops) r = getPoints st r := by
  intro ops
  induction ops with
  | nil => intro st; rfl
  | cons op rest ih =>
    intro st
    unfold applyGradeOps at ih ⊢
    rw [List.foldl_cons, ih, getPoints_applyGradeOp_ne _ _ _ _ _ h]

lemma getPoints_handleThrown_ne (hints : String → String → List String)
    (maxes : List (String × Int)) (q r : String) (st : LedgerState)
    (thr : Thrown) (h : r ≠ q) :
    getPoints (handleThrown hints q maxes st thr) r = getPoints st r := by
  cases thr <;>
    simp [handleThrown, getPoints_applyGradeOps_ne _ _ _ h,
      getPoints_applyGradeOp_ne _ _ _ _ _ h]

lemma gradeFold_inv (maxes : List (String × Int))
    (prereqs : List (String × List String)) (runs : String → QRun)
    (hints : String → String → List String) :
    ∀ (qs : List String) (rs : RunState),
      (∀ r, r ∉ rs.invoked → getPoints rs.ledger r = 0) →
      (∀ r ∈ rs.completed, getPoints rs.ledger r ≥ (maxes.lookup r).getD 0) →
      (∀ r ∈ rs.completed, r ∈ rs.invoked) →
      (∀ r ∈ rs.invoked, r ∉ qs) →
      qs.Nodup →
      (∀ r ∈ rs.invoked, r ∈ (qs.foldl (gradeStep maxes prereqs runs hints) rs).invoked) ∧
      (∀ r ∈ (qs.foldl (gradeStep maxes prereqs runs hints) rs).invoked,
        r ∈ rs.invoked ∨ r ∈ qs) ∧
      (∀ r ∈ rs.completed,
        r ∈ (qs.foldl (gradeStep maxes prereqs runs hints) rs).completed) ∧
      (∀ r, r ∉ (qs.foldl (gradeStep maxes prereqs runs hints) rs).invoked →
        getPoints (qs.foldl (gradeStep maxes prereqs runs hints) rs).ledger r = 0) ∧
      (∀ r ∈ (qs.foldl (gradeStep maxes prereqs runs hints) rs).completed,
        getPoints (qs.foldl (gradeStep maxes prereqs runs hints) rs).ledger r ≥
          (maxes.lookup r).getD 0) ∧
      (∀ r ∈ (qs.foldl (gradeStep maxes prereqs runs hints) rs).completed,
        r ∈ (qs.foldl (gradeStep maxes prereqs runs hints) rs).invoked) ∧
      (∀ x ∈ qs, ∀ P ∈ (prereqs.lookup x).getD [],
        P ∉ (qs.foldl (gradeStep maxes prereqs runs hints) rs).completed →
        x ∉ (qs.foldl (gradeStep maxes prereqs runs hints) rs).invoked) := by
  intro qs
  induction qs with
  | nil =>
    intro rs h1 h2 h3 h4 h5
    refine ⟨fun r hr => hr, fun r hr => Or.inl hr, fun r hr => hr, h1, h2, h3, ?_⟩
    intro x hx
    exact absurd hx (by simp)
  | cons x qs ih =>
    intro rs h1 h2 h3 h4 h5
    have hx_not_inv : x ∉ rs.invoked := fun hmem => h4 x hmem (by simp)
    have hx_not_qs : x ∉ qs := (List.nodup_cons.mp h5).1
    have h5' : qs.Nodup := (List.nodup_cons.mp h5).2
    rw [List.foldl_cons]
    by_cases hskip :
        ((prereqs.lookup x).getD []).any (fun p => !(rs.completed.contains p)) = true
    · -- prerequisite missing: the step is the identity
      have hstep : gradeStep maxes prereqs runs hints rs x = rs := by
        unfold gradeStep
        rw [if_pos hskip]
      rw [hstep]
      have h4'' : ∀ r ∈ rs.invoked, r ∉ qs := fun r hr hq => h4 r hr (by simp [hq])
      obtain ⟨c1, c2, c3, c4, c5, c6, c7⟩ := ih rs h1 h2 h3 h4'' h5'
      refine ⟨c1, fun r hr => ?_, c3, c4, c5, c6, ?_⟩
      · rcases c2 r hr with h | h
        · exact Or.inl h
        · exact Or.inr (by simp [h])
      · intro y hy P hP hPout
        rcases List.mem_cons.mp hy with rfl | hy2
        · intro hyout
          rcases c2 y hyout with h | h
          · exact hx_not_inv h
          · exact hx_not_qs h
        · exact c7 y hy2 P hP hPout
    · -- all prerequisites completed: the question runs
      have hpr : ∀ p ∈ (prereqs.lookup x).getD [], p ∈ rs.completed := by
        simpa using hskip
      set st1 := applyGradeOps maxes x rs.ledger (runs x).ops with hst1
      set st2 := handleThrown hints x maxes st1 (runs x).thrown with hst2
      have hstep : gradeStep maxes prereqs runs hints rs x =
          { ledger := st2,
            completed :=
              if getPoints st2 x ≥ (maxes.lookup x).getD 0 then rs.completed ++ [x]
              else rs.completed,
            invoked := rs.invoked ++ [x] } := by
        unfold gradeStep
        rw [if_neg hskip]
      have hframe : ∀ r, r ≠ x → getPoints st2 r = getPoints rs.ledger r := by
        intro r hr
        rw [hst2, getPoints_handleThrown_ne _ _ _ _ _ _ hr, hst1,
          getPoints_applyGradeOps_ne _ _ _ hr]
      set rs1 : RunState :=
        { ledger := st2,
          completed :=
            if getPoints st2 x ≥ (maxes.lookup x).getD 0 then rs.completed ++ [x]
            else rs.completed,
          invoked := rs.invoked ++ [x] } with hrs1
      rw [hstep]
      have h1' : ∀ r, r ∉ rs1.invoked → getPoints rs1.ledger r = 0 := by
        intro r hr
        rw [hrs1] at hr
        simp only [List.mem_append, not_or, List.mem_singleton] at hr
        have hrx : r ≠ x := by
          intro e
          exact hr.2 (by simp [e])
        rw [hrs1]
        have := hframe r hrx
        simp only [this]
        exact h1 r hr.1
      have h2' : ∀ r ∈ rs1.completed, getPoints rs1.ledger r ≥ (maxes.lookup r).getD 0 := by
        intro r hr
        rw [hrs1] at hr ⊢
        by_cases hcomp : getPoints st2 x ≥ (maxes.lookup x).getD 0
        · rw [if_pos hcomp] at hr
          rcases List.mem_append.mp hr with h | h
          · have hrx : r ≠ x := by
              intro e
              exact hx_not_inv (e ▸ h3 r h)
            simp only [hframe r hrx]
            exact h2 r h
          · have : r = x := by simpa using h
            subst this
            exact hcomp
        · rw [if_neg hcomp] at hr
          have hrx : r ≠ x := by
            intro e
            exact hx_not_inv (e ▸ h3 r hr)
          simp only [hframe r hrx]
          exact h2 r hr
      have h3' : ∀ r ∈ rs1.completed, r ∈ rs1.invoked := by
        intro r hr
        rw [hrs1] at hr ⊢
        by_cases hcomp : getPoints st2 x ≥ (maxes.lookup x).getD 0
        · rw [if_pos hcomp] at hr
          rcases List.mem_append.mp hr with h | h
          · exact List.mem_append.mpr (Or.inl (h3 r h))
          · exact List.mem_append.mpr (Or.inr h)
        · rw [if_neg hcomp] at hr
          exact List.mem_append.mpr (Or.inl (h3 r hr))
      have h4' : ∀ r ∈ rs1.invoked, r ∉ qs := by
        intro r hr
        rw [hrs1] at hr
        rcases List.mem_append.mp hr with h | h
        · exact fun hq => h4 r h (by simp [hq])
        · have : r = x := by simpa using h
          subst this
          exact hx_not_qs
      obtain ⟨c1, c2, c3, c4, c5, c6, c7⟩ := ih rs1 h1' h2' h3' h4' h5'
      have hmono_inv : ∀ r ∈ rs.invoked, r ∈ (qs.foldl (gradeStep maxes prereqs runs hints) rs1).invoked := by
        intro r hr
        exact c1 r (by rw [hrs1]; exact List.mem_append.mpr (Or.inl hr))
      have hmono_comp : ∀ r ∈ rs.completed, r ∈ (qs.foldl (gradeStep maxes prereqs runs hints) rs1).completed := by
        intro r hr
        refine c3 r ?_
        rw [hrs1]
        by_cases hcomp : getPoints st2 x ≥ (maxes.lookup x).getD 0
        · rw [if_pos hcomp]
          exact List.mem_append.mpr (Or.inl hr)
        · rw [if_neg hcomp]
          exact hr
      refine ⟨hmono_inv, ?_, hmono_comp, c4, c5, c6, ?_⟩
      · intro r hr
        rcases c2 r hr with h | h
        · rw [hrs1] at h
          rcases List.mem_append.mp h with h2a | h2a
          · exact Or.inl h2a
          · have : r = x := by simpa using h2a
            exact Or.inr (by simp [this])
        · exact Or.inr (by simp [h])
      · intro y hy P hP hPout
        rcases List.mem_cons.mp hy with rfl | hy2
        · intro _
          exact hPout (hmono_comp P (hpr P hP))
        · exact c7 y hy2 P hP hPout

/-- Claim C2: prerequisite gating in Grades.grade.  For any grading run
over distinct questions, if question q declares prerequisite P and P
never reaches the completed set, then the grading function of q is never
invoked and the final score of q is 0; moreover every member of the
completed set reached a point total at or above its max. -/
theorem c2_prereq_gating (maxes : List (String × Int))
    (prereqs : List (String × List String)) (runs : String → QRun)
    (hints : String → String → List String) (questions : List String)
    (q P : String)
    (hnd : questions.Nodup) (hq : q ∈ questions)
    (hP : P ∈ (prereqs.lookup q).getD [])
    (hPnc : P ∉ (gradeRun maxes prereqs runs hints questions).completed) :
    q ∉ (gradeRun maxes prereqs runs hints questions).invoked ∧
    getPoints (gradeRun maxes prereqs runs hints questions).ledger q = 0 ∧
    (∀ r ∈ (gradeRun maxes prereqs runs hints questions).completed,
      getPoints (gradeRun maxes prereqs runs hints questions).ledger r ≥
        (maxes.lookup r).getD 0) := by
  unfold gradeRun at hPnc ⊢
  obtain ⟨c1, c2, c3, c4, c5, c6, c7⟩ :=
    gradeFold_inv maxes prereqs runs hints questions ⟨⟨[], [], true⟩, [], []⟩
      (fun r _ => by simp [getPoints, List.lookup])
      (by simp) (by simp) (by simp) hnd
  have hninv := c7 q hq P hP hPnc
  exact ⟨hninv, c4 q hninv, c5⟩

/-- Witness for claim C2: q2 requires q1, q1 earns 1 of its 3 points and
so never completes; q2 is skipped (not invoked) and scores 0. -/
theorem c2_prereq_gating_witness :
    "q2" ∉ (gradeRun [("q1", 3), ("q2", 2)] [("q2", ["q1"])]
      (fun q => if q = "q1" then ⟨[.addPoints 1], .none⟩ else ⟨[.addPoints 2], .none⟩)
      (fun _ _ => []) ["q1", "q2"]).invoked ∧
    getPoints (gradeRun [("q1", 3), ("q2", 2)] [("q2", ["q1"])]
      (fun q => if q = "q1" then ⟨[.addPoints 1], .none⟩ else ⟨[.addPoints 2], .none⟩)
      (fun _ _ => []) ["q1", "q2"]).ledger "q2" = 0 ∧
    (∀ r ∈ (gradeRun [("q1", 3), ("q2", 2)] [("q2", ["q1"])]
      (fun q => if q = "q1" then ⟨[.addPoints 1], .none⟩ else ⟨[.addPoints 2], .none⟩)
      (fun _ _ => []) ["q1", "q2"]).completed,
      getPoints (gradeRun [("q1", 3), ("q2", 2)] [("q2", ["q1"])]
        (fun q => if q = "q1" then ⟨[.addPoints 1], .none⟩ else ⟨[.addPoints 2], .none⟩)
        (fun _ _ => []) ["q1", "q2"]).ledger r ≥
        ([("q1", (3 : Int)), ("q2", 2)].lookup r).getD 0) :=
  c2_prereq_gating [("q1", 3), ("q2", 2)] [("q2", ["q1"])]
    (fun q => if q = "q1" then ⟨[.addPoints 1], .none⟩ else ⟨[.addPoints 2], .none⟩)
    (fun _ _ => []) ["q1", "q2"] "q2" "q1"
    (by decide) (by decide) (by decide) (by decide)

lemma lookup_setPoints_self (l : List (String × Int)) (q : String) (v : Int) :
    (setPoints l q v).lookup q = some v := by
  induction l with
  | nil => simp [setPoints, List.lookup]
  | cons ab rest ih =>
    rcases ab with ⟨a, b⟩
    unfold setPoints
    by_cases e : a = q
    · rw [if_pos e]
      simp [List.lookup]
    · rw [if_neg e]
      have : (q == a) = false := beq_eq_false_iff_ne.mpr (fun h2 => e h2.symm)
      simp [List.lookup, this, ih]

lemma applyGradeOps_cons (maxes : List (String × Int)) (q : String)
    (st : LedgerState) (op : GradeOp) (ops : List GradeOp) :
    applyGradeOps maxes q st (op :: ops) =
      applyGradeOps maxes q (applyGradeOp maxes q st op) ops := rfl

lemma applyGradeOps_addMessages (maxes : List (String × Int)) (q : String)
    (l : List String) :
    ∀ st : LedgerState,
      applyGradeOps maxes q st (l.map .addMessage) =
        { st with msgs := st.msgs ++ l.map (fun m => (q, m)) } := by
  induction l with
  | nil => intro st; simp [applyGradeOps]
  | cons m rest ih =>
    intro st
    rw [List.map_cons, applyGradeOps_cons, ih]
    simp [applyGradeOp, List.append_assoc]

lemma handleThrown_timeout_eq (hints : String → String → List String)
    (q : String) (maxes : List (String × Int)) (st : LedgerState)
    (tb : List String) :
    handleThrown hints q maxes st (.timeout tb) =
      { points := setPoints st.points q 0,
        msgs := st.msgs ++ [(q, "FAIL: Exception raised: ")] ++ [(q, "")] ++
          tb.map (fun l => (q, l)) ++
          (hints (qnameOf q) tyTimeout).map (fun l => (q, l)),
        sane := false } := by
  have hmap : excMessages "" tb =
      .fail ("FAIL: Exception raised: " ++ "") :: ("" :: tb).map .addMessage := rfl
  simp only [handleThrown]
  rw [hmap, applyGradeOps_cons]
  have h1 : applyGradeOp maxes q st (.fail ("FAIL: Exception raised: " ++ "")) =
      { points := setPoints st.points q 0,
        msgs := st.msgs ++ [(q, "FAIL: Exception raised: ")],
        sane := false } := by
    simp [applyGradeOp, String.append_empty]
  rw [h1, applyGradeOps_addMessages, applyGradeOps_addMessages]
  simp [List.append_assoc]

/-- Claim C4 (amended): TimeoutFunctionException derives from Exception,
so a timed-out question is handled by the same except-Exception branch
as any other exception, NOT by a dedicated branch: credit is zeroed and
the messages recorded are the FAIL Exception-raised header (with the
empty str of the timeout exception), a blank line and the traceback
lines plus any hint — byte-identical to the handling of a normal
exception whose message is empty.  The FAIL Terminated message appears
only when the raised value does not derive from Exception (the bare
except clause), which also zeroes credit. -/
theorem c4_timeout_amended (hints : String → String → List String)
    (q : String) (maxes : List (String × Int)) (st : LedgerState)
    (tb : List String) :
    handleThrown hints q maxes st (.timeout tb) =
      handleThrown hints q maxes st (.exc tyTimeout "" tb) ∧
    getPoints (handleThrown hints q maxes st (.timeout tb)) q = 0 ∧
    (handleThrown hints q maxes st (.timeout tb)).msgs =
      st.msgs ++ [(q, "FAIL: Exception raised: ")] ++ [(q, "")] ++
        tb.map (fun l => (q, l)) ++
        (hints (qnameOf q) tyTimeout).map (fun l => (q, l)) ∧
    getPoints (handleThrown hints q maxes st .baseExc) q = 0 ∧
    (handleThrown hints q maxes st .baseExc).msgs =
      st.msgs ++ [(q, "FAIL: Terminated with a string exception.")] := by
  refine ⟨rfl, ?_, ?_, ?_, ?_⟩
  · rw [handleThrown_timeout_eq]
    simp [getPoints, lookup_setPoints_self]
  · rw [handleThrown_timeout_eq]
  · simp [handleThrown, applyGradeOp, getPoints, lookup_setPoints_self]
  · simp [handleThrown, applyGradeOp]

/-- Counterexample to claim C4 as stated: a question whose grading
function times out produces exactly the generic exception messages (the
FAIL Exception-raised header with empty message, a blank line and the
traceback) with zero credit; no terminated message distinct from normal
exception handling is ever recorded for a timeout. -/
theorem c4_timeout_counterexample :
    (gradeRun [("q1", 3)] [] (fun _ => ⟨[], .timeout ["tbline"]⟩)
      (fun _ _ => []) ["q1"]).ledger.msgs =
      [("q1", "FAIL: Exception raised: "), ("q1", ""), ("q1", "tbline")] ∧
    ((gradeRun [("q1", 3)] [] (fun _ => ⟨[], .timeout ["tbline"]⟩)
      (fun _ _ => []) ["q1"]).ledger.msgs.all
        (fun p => !(p.2 == "FAIL: Terminated with a string exception."))) = true ∧
    getPoints (gradeRun [("q1", 3)] [] (fun _ => ⟨[], .timeout ["tbline"]⟩)
      (fun _ _ => []) ["q1"]).ledger "q1" = 0 := by
  refine ⟨by decide, by decide, by decide⟩

/- ------------------------------------------------------------------ -/
/- Output muting: src/p0/tutorial/util.py                              -/
/- ------------------------------------------------------------------ -/

/-- Values sys.stdout can hold in this model: the real stream, the
WritableNull device installed by mutePrint, or Python None (the initial
value of the saved-stdout global). -/
inductive PyStdout where
  | realStdout
  | writableNull
  | pyNone
deriving DecidableEq

/-- The global muting state of util.py: sys.stdout, the module global
holding the saved original stdout, and the muted flag. -/
structure MuteState where
  stdout : PyStdout
  originalStdout : PyStdout
  muted : Bool
deriving DecidableEq

/-- util.mutePrint: early return when already muted; otherwise save the
current stdout, install the null device and set the flag. -/
def mutePrint (s : MuteState) : MuteState :=
  if s.muted then s
  else { stdout := .writableNull, originalStdout := s.stdout, muted := true }

/-- util.unmutePrint: early return when not muted; otherwise clear the
flag and restore the saved stdout (the saved global is not cleared). -/
def unmutePrint (s : MuteState) : MuteState :=
  if s.muted then
    { stdout := s.originalStdout, originalStdout := s.originalStdout, muted := false }
  else s

/-- Process start state: real stdout, saved global None, not muted. -/
def initialSysState : MuteState := ⟨.realStdout, .pyNone, false⟩

/-- Counterexample to claim C6 as stated: from the unmuted start state,
mutePrint twice then unmutePrint once leaves output UNMUTED with the
real stdout restored — the second mute is a no-op, so a single unmute
fully restores; output is not still muted. -/
theorem c6_mute_counterexample :
    unmutePrint (mutePrint (mutePrint initialSysState)) =
      ⟨.realStdout, .realStdout, false⟩ ∧
    ((unmutePrint (mutePrint (mutePrint initialSysState))).muted = true → False) := by
  refine ⟨by decide, by decide⟩

/-- Claim C6 (amended): muting is single-level, not a counter — a second
mutePrint while muted is a no-op and unmutePrint while not muted is a
no-op — and therefore calling mutePrint twice then unmutePrint once from
an unmuted state leaves output UNMUTED with the original stdout
restored, not muted as the claim stated. -/
theorem c6_mute_amended (s : MuteState) :
    (s.muted = true → mutePrint s = s) ∧
    (s.muted = false → unmutePrint s = s) ∧
    mutePrint (mutePrint s) = mutePrint s ∧
    (s.muted = false →
      (unmutePrint (mutePrint (mutePrint s))).muted = false ∧
      (unmutePrint (mutePrint (mutePrint s))).stdout = s.stdout) := by
  refine ⟨?_, ?_, ?_, ?_⟩
  · intro h
    simp [mutePrint, h]
  · intro h
    simp [unmutePrint, h]
  · cases h : s.muted with
    | true => simp [mutePrint, h]
    | false => simp [mutePrint, h]
  · intro h
    simp [mutePrint, unmutePrint, h]

/-- Witness for the amended claim C6 at the process start state. -/
theorem c6_mute_amended_witness :
    mutePrint (mutePrint initialSysState) = mutePrint initialSysState ∧
    (unmutePrint (mutePrint (mutePrint initialSysState))).muted = false ∧
    (unmutePrint (mutePrint (mutePrint initialSysState))).stdout = .realStdout :=
  ⟨(c6_mute_amended initialSysState).2.2.1,
   ((c6_mute_amended initialSysState).2.2.2 (by decide)).1,
   ((c6_mute_amended initialSysState).2.2.2 (by decide)).2⟩

/- ------------------------------------------------------------------ -/
/- EvalTest: src/p0/tutorial/tutorialTestClasses.py                    -/
/- ------------------------------------------------------------------ -/

/-- A Python dict namespace: bindings from names to (stringified)
values. -/
abbrev PyNS := List (String × String)

/-- A store of dict objects, so that dict identity and in-place mutation
by exec and eval are observable; a reference is an index. -/
structure PyStore where
  dicts : List PyNS
deriving DecidableEq

/-- In-place update of the dict object at reference r. -/
def setDict (st : PyStore) (r : Nat) (ns : PyNS) : PyStore :=
  ⟨st.dicts.set r ns⟩

/-- The fields EvalTest reads from its test record in post-init:
preamble, test, success and failure (each defaulting to the empty
string). -/
structure EvalTestData where
  preamble : String
  test : String
  success : String
  failure : String

/-- EvalTest.evalCode.  The Python interpreter is abstracted by two
semantic parameters: execSem code ns is the final contents of the dict
exec(code, dict) was given (or an error), and evalSem code ns is
str(eval(code, dict)) together with the dict contents afterwards (eval
may call functions with side effects).  evalCode allocates a FRESH dict
initialised with a copy of the module bindings — bindings =
dict(moduleDict) — runs the preamble against it when nonempty (errors
re-raised with the preamble prefix), then evaluates the test expression
against it (errors re-raised with the evaluating-test prefix). -/
def evalCode (execSem : String → PyNS → Except String PyNS)
    (evalSem : String → PyNS → Except String (String × PyNS))
    (t : EvalTestData) (st : PyStore) (moduleRef : Nat) :
    PyStore × Except String String :=
  let moduleNS := st.dicts.getD moduleRef []
  let bindingsRef := st.dicts.length
  let st1 : PyStore := ⟨st.dicts ++ [moduleNS]⟩
  match (if t.preamble = "" then Except.ok moduleNS else execSem t.preamble moduleNS) with
  | .error e => (st1, .error ("Error in preamble: " ++ e))
  | .ok ns1 =>
    let st2 := setDict st1 bindingsRef ns1
    match evalSem t.test ns1 with
    | .error e => (st2, .error ("Error evaluating test: " ++ e))
    | .ok res => (setDict st2 bindingsRef res.2, .ok res.1)

/-- EvalTest.execute: evaluate the test code (evalCode is called with no
try block, so an evaluation error propagates before any message is
recorded), compare the stringified result with the result field of the
solution record by exact string equality, and append the pass message
with the expected value, or the fail message with both values. -/
def executeEval (execSem : String → PyNS → Except String PyNS)
    (evalSem : String → PyNS → Except String (String × PyNS))
    (t : EvalTestData) (msgs : List String) (st : PyStore) (moduleRef : Nat)
    (solutionDict : List (String × String)) :
    PyStore × List String × Except String Bool :=
  match evalCode execSem evalSem t st moduleRef with
  | (st', .error e) => (st', msgs, .error e)
  | (st', .ok result) =>
    let solution := (solutionDict.lookup "result").getD ""
    if result = solution then
      (st', msgs ++ ["PASS: " ++ t.success,
        "\t correct result: \"" ++ solution ++ "\""], .ok true)
    else
      (st', msgs ++ ["FAIL: " ++ t.failure,
        "\t student result: \"" ++ result ++ "\"",
        "\t correct result: \"" ++ solution ++ "\""], .ok false)

/-- Claim C9: when evaluation of the preamble or the test expression
raises, EvalTest.execute propagates the evaluation error to its caller
unchanged: the error is not converted into a graceful false result and
no pass or fail message is added to the ledger for that test. -/
theorem c9_eval_error_propagates
    (execSem : String → PyNS → Except String PyNS)
    (evalSem : String → PyNS → Except String (String × PyNS))
    (t : EvalTestData) (msgs : List String) (st st' : PyStore) (moduleRef : Nat)
    (solutionDict : List (String × String)) (e : String)
    (h : evalCode execSem evalSem t st moduleRef = (st', .error e)) :
    executeEval execSem evalSem t msgs st moduleRef solutionDict =
      (st', msgs, .error e) := by
  unfold executeEval
  rw [h]

/-- Witness for claim C9: an evaluation that raises a division-by-zero
style error propagates as the evaluating-test error with no messages. -/
theorem c9_eval_error_propagates_witness :
    executeEval (fun _ ns => .ok ns) (fun _ _ => .error "division by zero")
      ⟨"x = 2", "1/0", "ok", "bad"⟩ [] ⟨[[("shop", "mod")]]⟩ 0 [("result", "5")] =
      (⟨[[("shop", "mod")], [("shop", "mod")]]⟩, [],
        .error ("Error evaluating test: " ++ "division by zero")) :=
  c9_eval_error_propagates _ _ _ _ _ _ _ _ _ (by rfl)

lemma set_append_len {α : Type} (l : List α) (a b : α) :
    (l ++ [a]).set l.length b = l ++ [b] := by
  induction l with
  | nil => rfl
  | cons x xs ih => simp [List.set, ih]

/-- Claim C10: evalCode never mutates the module dict of the caller.  The
preamble and the test expression are executed against the freshly
allocated copy, so whatever execSem and evalSem do, the store entry of
moduleRef is identical before and after evalCode, and also after a full
execute. -/
theorem c10_no_module_mutation
    (execSem : String → PyNS → Except String PyNS)
    (evalSem : String → PyNS → Except String (String × PyNS))
    (t : EvalTestData) (msgs : List String) (st : PyStore) (moduleRef : Nat)
    (solutionDict : List (String × String))
    (h : moduleRef < st.dicts.length) :
    (evalCode execSem evalSem t st moduleRef).1.dicts[moduleRef]? =
      st.dicts[moduleRef]? ∧
    (executeEval execSem evalSem t msgs st moduleRef solutionDict).1.dicts[moduleRef]? =
      st.dicts[moduleRef]? := by
  have happ : ∀ ns : PyNS, (st.dicts ++ [ns])[moduleRef]? = st.dicts[moduleRef]? := by
    intro ns
    rw [List.getElem?_append, if_pos h]
  have hmain : (evalCode execSem evalSem t st moduleRef).1.dicts[moduleRef]? =
      st.dicts[moduleRef]? := by
    unfold evalCode
    dsimp only
    split
    · exact happ _
    · simp only [setDict, set_append_len]
      split
      · exact happ _
      · exact happ _
  have hexec : (executeEval execSem evalSem t msgs st moduleRef solutionDict).1 =
      (evalCode execSem evalSem t st moduleRef).1 := by
    unfold executeEval
    rcases hev : evalCode execSem evalSem t st moduleRef with ⟨st', r⟩
    cases r with
    | error e => rfl
    | ok result =>
      by_cases hr : result = (solutionDict.lookup "result").getD ""
      · simp [hr]
      · simp [hr]
  exact ⟨hmain, by rw [hexec]; exact hmain⟩

/-- Witness for claim C10: a preamble that adds bindings to its namespace
leaves the module dict at reference 0 unchanged after execute. -/
theorem c10_no_module_mutation_witness :
    (0 : Nat) < (⟨[[("shop", "mod")]]⟩ : PyStore).dicts.length ∧
    (executeEval (fun _ ns => .ok (("x", "2") :: ns))
      (fun _ ns => .ok ("5", ns))
      ⟨"x = 2", "x + 3", "ok", "bad"⟩ [] ⟨[[("shop", "mod")]]⟩ 0
      [("result", "5")]).1.dicts[(0 : Nat)]? = some [("shop", "mod")] :=
  ⟨by decide,
   by
    rw [(c10_no_module_mutation (fun _ ns => .ok (("x", "2") :: ns))
      (fun _ ns => .ok ("5", ns)) ⟨"x = 2", "x + 3", "ok", "bad"⟩ []
      ⟨[[("shop", "mod")]]⟩ 0 [("result", "5")] (by decide)).2]
    rfl⟩
